import Mathlib

/-!
Verification of the request-context derivation and decision pipeline of the
aserto-dev/go-aserto middleware library.

The Go sources are shallowly embedded: structs become Lean structures, methods
become functions, in-place mutation of maps or of middleware fields becomes
explicit value/state passing, and fallible calls return `Except`.  External
collaborators (the authorizer backend, the JWT parser) are modelled as function
parameters (oracles).  Go strings are modelled as Lean `String`s; the byte/rune
distinction is immaterial for the properties below (all inputs are ASCII).
-/

namespace GoAserto

/-! ## Go string helpers (package `strings`)

All helpers work on the underlying character lists by structural recursion
(rather than through the well-founded-recursion implementations in core) so
that concrete instances evaluate by `decide`/`rfl`. -/

/-- `strings.Trim(s, cutset)`: removes leading and trailing characters that
appear in `cutset`. -/
def goTrim (s : String) (cutset : String) : String :=
  let cs := cutset.toList
  String.mk (((s.toList.dropWhile (cs.contains ·)).reverse.dropWhile (cs.contains ·)).reverse)

/-- `strings.HasPrefix(s, pre)`. -/
def goHasPrefix (s : String) (pre : String) : Bool :=
  pre.toList.isPrefixOf s.toList

/-- `strings.HasSuffix(s, suf)`. -/
def goHasSuffix (s : String) (suf : String) : Bool :=
  suf.toList.isSuffixOf s.toList

/-- `strings.TrimPrefix(s, pre)`: removes `pre` from the start of `s` when present. -/
def goTrimPrefix (s : String) (pre : String) : String :=
  if goHasPrefix s pre then String.mk (s.toList.drop pre.toList.length) else s

/-- `strings.TrimSpace(s)`: removes leading and trailing whitespace. -/
def goTrimSpace (s : String) : String :=
  String.mk (((s.toList.dropWhile Char.isWhitespace).reverse.dropWhile Char.isWhitespace).reverse)

/-- Splitting a character list on a separator character; `splitChars c l`
always returns at least one group. -/
def splitChars (sep : Char) : List Char → List (List Char)
  | [] => [[]]
  | c :: rest =>
    let r := splitChars sep rest
    if c = sep then [] :: r
    else
      match r with
      | [] => [[c]]
      | g :: gs => (c :: g) :: gs

/-- `strings.Split(s, sep)`; the middleware only splits on the single
characters `"/"` and `"."`. -/
def goSplit (s : String) (sep : String) : List String :=
  match sep.toList with
  | [c] => (splitChars c s.toList).map String.mk
  | _ => [s]

/-- `strings.Join(elems, sep)`. -/
def goJoin (elems : List String) (sep : String) : String :=
  String.intercalate sep elems

/-- `strings.ToLower(s)` (ASCII; the Unicode cases do not arise here). -/
def goToLower (s : String) : String :=
  String.mk (s.toList.map Char.toLower)

/-- `strings.ReplaceAll(s, old, new)` for single-character arguments, the only
form used (`"/"` to `"."`). -/
def goReplaceChar (s : String) (o : Char) (n : Char) : String :=
  String.mk (s.toList.map (fun c => if c = o then n else c))

/-- Go slicing `s[:n]` (byte truncation; identical to character truncation for
the ASCII method paths involved). -/
def goTake (s : String) (n : Nat) : String :=
  String.mk (s.toList.take n)

/-- The character length of a string (`len(s)` in Go counts bytes; identical
for ASCII). -/
def goLen (s : String) : Nat :=
  s.toList.length

/-! ## Protobuf data model

`api.IdentityType` from `go-authorizer` (UNKNOWN=0, NONE=1, SUB=2, JWT=3,
MANUAL=4); `api.IdentityContext`, `api.PolicyContext`, `api.PolicyInstance`;
the authorizer `IsRequest`/`IsResponse` pair and the directory `CheckRequest`/
`CheckResponse` pair. -/

inductive IdentityType where
  | unknown
  | none
  | sub
  | jwt
  | manual
deriving DecidableEq, Repr

structure IdentityContext where
  type : IdentityType
  identity : String
deriving DecidableEq, Repr

structure PolicyContext where
  path : String
  decisions : List String
deriving DecidableEq, Repr

structure PolicyInstance where
  name : String
  instanceLabel : String
deriving DecidableEq, Repr

/-- `middleware.Policy`: `{Name, Path, Decision, Root}`. -/
structure Policy where
  name : String := ""
  path : String := ""
  decision : String := ""
  root : String := ""
deriving DecidableEq, Repr

/-- A single `{decision_name, is}` entry of an authorizer response. -/
structure Decision where
  decision : String := ""
  is : Bool := false
deriving DecidableEq, Repr

structure IsResponse where
  decisions : List Decision
deriving DecidableEq, Repr

/-- Go `error` values arising in the middleware.  `errors.Wrap`/`cerr.WrapContext`
become `wrap`, `cerr.WithContext` becomes `withContext`, `errors.New` becomes
`errMsg`; the two sentinel errors of `go-authorizer/pkg/aerr` are dedicated
constructors. -/
inductive GoErr where
  | invalidDecision
  | authorizationFailed
  | errMsg (s : String)
  | wrap (msg : String) (inner : GoErr)
  | withContext (inner : GoErr)
deriving DecidableEq, Repr

/-- `pbutil.ErrBadMask = errors.New("invalid mask")`. -/
def ErrBadMask : GoErr := .errMsg "invalid mask"

/-! ## Protobuf messages and `structpb` values

A protobuf message value is a list of named fields; a field is either a scalar
(all scalars of interest in this repository are strings) or a nested message.
The message value doubles as its own descriptor: a field path is valid when the
walk through the message structure succeeds.  `structpb.Struct` values are the
JSON-like structures sent as resource context. -/

inductive PValue where
  | prim (v : String)
  | msg (fields : List (String × PValue))
deriving Repr

abbrev PMessage := List (String × PValue)

inductive SValue where
  | str (v : String)
  | strct (fields : List (String × SValue))
deriving Repr

abbrev Struct := List (String × SValue)

/-- Update-or-append on an association list: models assignment `m[k] = v` on a
Go map (last write wins). -/
def mapSet (m : List (String × SValue)) (k : String) (v : SValue) : List (String × SValue) :=
  if m.any (fun kv => kv.1 == k) then
    m.map (fun kv => if kv.1 == k then (k, v) else kv)
  else
    m ++ [(k, v)]

/-- The mutable `map[string]any` threaded through resource mappers. -/
abbrev ResMap := List (String × SValue)

/-- `structpb.NewStruct(res)`: conversion of a `map[string]any` whose values
are already structured values never fails, so the error branch of the Go call
is unreachable in this model (the enforcement wrappers still handle it). -/
def newStruct (res : ResMap) : Except GoErr Struct := .ok res

/-! ## Request context model

An incoming gRPC call context: the full method string (`grpc.Method`, empty
when absent — the middleware discards the `ok` flag), incoming metadata, and
string-valued context values (`internal.ValueOrEmpty` returns `""` for an
absent or non-string value, so only string values are modelled). -/

structure Ctx where
  method : String := ""
  metadata : List (String × List String) := []
  values : List (String × String) := []

/-- The `req any` message of a unary call: `none` models a nil request (as in
stream interception). -/
abbrev Req := Option PMessage

/-- `metadata.MD.Get(field)`: keys are normalized to lower case. -/
def mdGet (md : List (String × List String)) (field : String) : List String :=
  (md.lookup (goToLower field)).getD []

/-- `internal.ValueOrEmpty(ctx, key)`. -/
def ValueOrEmpty (ctx : Ctx) (key : String) : String :=
  (ctx.values.lookup key).getD ""

/-- `internal.ToPolicyPath(path)`: trim leading/trailing `/`, replace the rest
with `.`. -/
def ToPolicyPath (path : String) : String :=
  goReplaceChar (goTrim path "/") '/' '.'

/-- Modelled from the spec: `internal.DefaultSubjType` is defined outside the
available sources (only its uses appear); the spec fixes the default subject
type to `"user"`. -/
def DefaultSubjType : String := "user"

/-- `internal.DefaultPolicyContext(policy)`. -/
def DefaultPolicyContext (policy : Policy) : PolicyContext :=
  { path := policy.path, decisions := [policy.decision] }

/-- `internal.DefaultPolicyInstance(policy)`. -/
def DefaultPolicyInstance (policy : Policy) : PolicyInstance :=
  { name := policy.name, instanceLabel := policy.name }

/-- `internal.Lookup[string]`: a set of strings with membership test; a nil map
and an empty map answer `Contains` identically, so both are the empty list. -/
abbrev Lookup := List String

def NewLookup (items : List String) : Lookup := items

def Lookup.Contains (l : Lookup) (item : String) : Bool := l.contains item

/-! ## `middleware/internal.Identity`

The mutable identity accumulator handed to identity mappers.  Each Go method
mutates the receiver; here each returns the updated value. -/

structure InternalIdentity where
  context : IdentityContext

def NewIdentity (identityType : IdentityType) (identity : String) : InternalIdentity :=
  ⟨{ type := identityType, identity := identity }⟩

def InternalIdentity.JWT (id : InternalIdentity) : InternalIdentity :=
  ⟨{ id.context with type := .jwt }⟩

def InternalIdentity.Subject (id : InternalIdentity) : InternalIdentity :=
  ⟨{ id.context with type := .sub }⟩

def InternalIdentity.Manual (id : InternalIdentity) : InternalIdentity :=
  ⟨{ id.context with type := .manual }⟩

def InternalIdentity.None (_id : InternalIdentity) : InternalIdentity :=
  ⟨{ type := .none, identity := "" }⟩

def InternalIdentity.ID (id : InternalIdentity) (identity : String) : InternalIdentity :=
  ⟨{ id.context with identity := identity }⟩

/-- `Identity.Context()`: if the accumulated identity value is empty the kind
is forced to NONE before the context is returned. -/
def InternalIdentity.Context (id : InternalIdentity) : IdentityContext :=
  if id.context.identity = "" then { type := .none, identity := "" } else id.context

/-! ## `grpcz.IdentityBuilder`

The builder stores an identity type, a default identity value and at most one
mapper.  `FromMetadata` and `FromContextValue` install closures that read the
builder's current identity type *through the receiver pointer* at build time,
so they are modelled as tagged sources interpreted by `build` against the
final builder state; `Mapper` installs an arbitrary callback.  The JWT parser
(`jwt.ParseString` + `token.Subject()`) is an external library, modelled as an
oracle `jwtSub` returning the subject of a successfully parsed token. -/

inductive BuilderMapper where
  | fromMetadata (field : String)
  | fromContextValue (key : String)
  | custom (f : Ctx → Req → IdentityContext → IdentityContext)

structure IdentityBuilder where
  identityType : IdentityType := .unknown
  defaultIdentity : String := ""
  mapper : Option BuilderMapper := Option.none

def IdentityBuilder.JWT (b : IdentityBuilder) : IdentityBuilder :=
  { b with identityType := .jwt }

def IdentityBuilder.Subject (b : IdentityBuilder) : IdentityBuilder :=
  { b with identityType := .sub }

def IdentityBuilder.Manual (b : IdentityBuilder) : IdentityBuilder :=
  { b with identityType := .manual }

def IdentityBuilder.None (b : IdentityBuilder) : IdentityBuilder :=
  { b with identityType := .none, defaultIdentity := "" }

def IdentityBuilder.ID (b : IdentityBuilder) (identity : String) : IdentityBuilder :=
  { b with defaultIdentity := identity }

def IdentityBuilder.FromMetadata (b : IdentityBuilder) (field : String) : IdentityBuilder :=
  { b with mapper := some (.fromMetadata field) }

def IdentityBuilder.FromContextValue (b : IdentityBuilder) (key : String) : IdentityBuilder :=
  { b with mapper := some (.fromContextValue key) }

def IdentityBuilder.Mapper (b : IdentityBuilder)
    (f : Ctx → Req → IdentityContext → IdentityContext) : IdentityBuilder :=
  { b with mapper := some (.custom f) }

/-- `IdentityBuilder.fromAuthzHeader`: strip the "Bearer" scheme; when the
identity type is SUB, substitute the JWT subject on successful parse and fall
back to the raw value otherwise. -/
def IdentityBuilder.fromAuthzHeader (jwtSub : String → Option String)
    (b : IdentityBuilder) (value : String) : String :=
  let value := goTrimSpace (goTrimPrefix value "Bearer")
  if b.identityType = .sub then
    match jwtSub value with
    | some s => s
    | Option.none => value
  else value

/-- `IdentityBuilder.build(ctx, req)`. -/
def IdentityBuilder.build (jwtSub : String → Option String)
    (b : IdentityBuilder) (ctx : Ctx) (req : Req) : IdentityContext :=
  let identity := NewIdentity b.identityType b.defaultIdentity
  let identity :=
    match b.mapper with
    | Option.none => identity
    | some (.fromMetadata field) =>
      match mdGet ctx.metadata field with
      | [] => identity
      | v :: _ => identity.ID (b.fromAuthzHeader jwtSub v)
    | some (.fromContextValue key) => identity.ID (ValueOrEmpty ctx key)
    | some (.custom f) => ⟨f ctx req identity.context⟩
  identity.Context

/-! ## `middleware/grpcz/internal/pbutil.Select`

Field-mask based selection of fields from a typed message.  `fieldmaskpb.New`
fails when any path is invalid for the message's descriptor; `Normalize` sorts
the paths and removes duplicates and paths covered by a prefix path;
`mask.IsValid` re-checks validity and yields `ErrBadMask`. -/

def lookupField (m : PMessage) (name : String) : Option PValue :=
  m.lookup name

/-- Validity of one dotted path (already split into segments) against the
message structure: every segment must name a field, and every non-final
segment must name a message-typed field. -/
def pathValid (m : PMessage) : List String → Bool
  | [] => false
  | [seg] => (lookupField m seg).isSome
  | seg :: rest =>
    match lookupField m seg with
    | some (.msg sub) => pathValid sub rest
    | _ => false

def insertSorted (x : String) : List String → List String
  | [] => [x]
  | y :: ys => if x ≤ y then x :: y :: ys else y :: insertSorted x ys

def sortPaths (l : List String) : List String :=
  l.foldr insertSorted []

/-- `fieldmaskpb.FieldMask.Normalize`: sort lexicographically, drop duplicates
and any path covered by a proper prefix path in the set. -/
def normalizePaths (paths : List String) : List String :=
  let sorted := sortPaths paths.eraseDups
  sorted.filter (fun p => ¬ sorted.any (fun q => q ≠ p && goHasPrefix p (q ++ ".")))

/-- `pbutil.newFieldMask(msg, paths...)`: `fieldmaskpb.New` rejects an invalid
path (modelled as an error value; the Go error carries the protobuf message);
after normalization `IsValid` failure yields `ErrBadMask` (unreachable, since
normalization preserves validity). -/
def newFieldMask (msg : PMessage) (paths : List String) : Except GoErr (List String) :=
  if ¬ paths.all (fun p => pathValid msg (goSplit p ".")) then
    .error (.errMsg "invalid field path")
  else
    let mask := normalizePaths paths
    if ¬ mask.all (fun p => pathValid msg (goSplit p ".")) then .error ErrBadMask
    else .ok mask

mutual

/-- Conversion of a protobuf value to a `structpb` value: scalars via
`structpb.NewValue`, messages via `protojson` round-trip (`messageStruct`). -/
def pvalueToSValue : PValue → SValue
  | .prim v => .str v
  | .msg fields => .strct (pfieldsToStruct fields)

def pfieldsToStruct : List (String × PValue) → Struct
  | [] => []
  | (k, v) :: rest => (k, pvalueToSValue v) :: pfieldsToStruct rest

end

/-- `pbutil.fieldValueToStructValue(msg, fieldName)`.  A missing field would
make the Go code panic on a nil descriptor; mask validation rules that out,
and the model returns an error for totality. -/
def fieldValueToStructValue (msg : PMessage) (fieldName : String) : Except GoErr SValue :=
  match lookupField msg fieldName with
  | some (.prim v) => .ok (.str v)
  | some (.msg fields) => .ok (.strct (pfieldsToStruct fields))
  | Option.none => .error (.errMsg "no such field")

/-- `pbutil.addMessagePathToStruct(msg, path, strct)` on the split path,
rebuilding the nested structure instead of mutating it in place.  When an
intermediate key holds a non-struct value the Go code would panic; normalized
masks never produce that case, and the model starts from an empty struct
there. -/
def addPathToStruct (msg : PMessage) (strct : Struct) : List String → Except GoErr Struct
  | [] => .ok strct
  | [lastPart] =>
    match fieldValueToStructValue msg lastPart with
    | .error e => .error e
    | .ok v => .ok (mapSet strct lastPart v)
  | part :: rest =>
    let sub : Struct :=
      match strct.lookup part with
      | some (.strct fields) => fields
      | _ => []
    let subMsg : PMessage :=
      match lookupField msg part with
      | some (.msg fields) => fields
      | _ => []
    match addPathToStruct subMsg sub rest with
    | .error e => .error e
    | .ok sub' => .ok (mapSet strct part (.strct sub'))

/-- `pbutil.Select(msg, paths...)`. -/
def Select (msg : PMessage) (paths : List String) : Except GoErr Struct :=
  match newFieldMask msg paths with
  | .error e => .error e
  | .ok mask => mask.foldlM (fun strct path => addPathToStruct msg strct (goSplit path ".")) []

/-! ## gRPC resource mappers (`grpcz`)

Go resource mappers mutate a `map[string]any` in place; the model passes the
map through and returns the updated value. -/

abbrev StringMapper := Ctx → Req → String
abbrev ResourceMapper := Ctx → Req → ResMap → ResMap

/-- Stringification used by the `"*"` resource mapper:
`protoReq.ProtoReflect().Get(field).String()`.  For a message-typed field the
protoreflect textual rendering is not modelled (no claim depends on it). -/
def pvalueString : PValue → String
  | .prim v => v
  | .msg _ => ""

/-- `grpcz.messageResourceMapper(fieldsByPath, defaults...)`.  The error of
`pbutil.Select` is discarded (`resource, _ := pbutil.Select(...)`); a nil
result struct behaves as an empty map under `AsMap`. -/
def messageResourceMapper (fieldsByPath : List (String × List String))
    (defaults : List String) : ResourceMapper :=
  fun ctx req res =>
    let method := ctx.method
    let fields :=
      match fieldsByPath.lookup method with
      | some fs => if fs.length = 0 then defaults else fs
      | Option.none => defaults
    if fields.length > 0 then
      match req with
      | some msg =>
        let resource : Struct :=
          match Select msg fields with
          | .ok s => s
          | .error _ => []
        resource.foldl (fun r kv => mapSet r kv.1 kv.2) res
      | Option.none => res
    else res

/-- `grpcz.reqMessageResourceMapper()`: every top-level field, stringified.
`structpb.NewValue` on a string never fails, so the `continue` branch is
unreachable. -/
def reqMessageResourceMapper : ResourceMapper :=
  fun _ req res =>
    match req with
    | some msg => msg.foldl (fun r kv => mapSet r kv.1 (.str (pvalueString kv.2))) res
    | Option.none => res

/-- `grpcz.contextValueResourceMapper(ctxKey, field)`: copies the context value
into the named resource field only when present. -/
def contextValueResourceMapper (ctxKey : String) (field : String) : ResourceMapper :=
  fun ctx _ res =>
    match ctx.values.lookup ctxKey with
    | some v => mapSet res field (.str v)
    | Option.none => res

/-- `grpcz.methodPolicyMapper(policyRoot)`. -/
def methodPolicyMapper (policyRoot : String) : StringMapper :=
  fun ctx _ =>
    let method := ctx.method
    let path := ToPolicyPath method
    if policyRoot = "" then path
    else policyRoot ++ "." ++ ToPolicyPath method

/-! ## Backend clients and interception outcomes -/

structure IsRequest where
  identityContext : IdentityContext
  policyContext : PolicyContext
  resourceContext : Struct
  policyInstance : PolicyInstance

/-- The authorizer backend's single-decision query operation
(`AuthorizerClient.Is`), an external collaborator. -/
abbrev Client := IsRequest → Except GoErr IsResponse

structure CheckRequest where
  objectType : String
  objectId : String
  relation : String
  subjectType : String
  subjectId : String

structure CheckResponse where
  check : Bool

/-- The directory reader's relation-check operation (`CheckClient.Check`). -/
abbrev DsClient := CheckRequest → Except GoErr CheckResponse

/-- Instrumented result of an `authorize` call: the returned error (`none` for
a nil error, letting the request through) and whether the backend RPC was
issued. -/
structure AuthzResult where
  err : Option GoErr
  backendCalled : Bool
deriving DecidableEq, Repr

/-- Outcome of a gRPC unary/stream interceptor around a downstream handler. -/
inductive UnaryOutcome where
  | handlerInvoked
  | errorReturned (e : GoErr)
deriving DecidableEq, Repr

/-! ## `grpcz.Middleware` (current gRPC policy middleware) -/

structure GrpczMiddleware where
  Identity : IdentityBuilder
  policy : Policy
  policyMapper : Option StringMapper := Option.none
  resourceMappers : List ResourceMapper := []
  ignoredPaths : Lookup := []
  allowedMethods : Lookup := []

/-- `grpcz.New(authzClient, policy)` (the client is passed at call time in
this model). -/
def GrpczMiddleware.New (policy : Policy) : GrpczMiddleware :=
  { Identity := (({} : IdentityBuilder).FromMetadata "authorization")
    policy := policy
    policyMapper := if policy.path ≠ "" then Option.none else some (methodPolicyMapper "") }

/-- `grpcz.Middleware.WithIgnoredMethods(paths)`: the configured paths are
stored verbatim in the lookup set. -/
def GrpczMiddleware.WithIgnoredMethods (m : GrpczMiddleware) (paths : List String) :
    GrpczMiddleware :=
  { m with ignoredPaths := NewLookup paths }

def GrpczMiddleware.WithAllowedMethods (m : GrpczMiddleware) (methods : List String) :
    GrpczMiddleware :=
  { m with allowedMethods := NewLookup methods }

def GrpczMiddleware.WithPolicyPathMapper (m : GrpczMiddleware) (mapper : StringMapper) :
    GrpczMiddleware :=
  { m with policyMapper := some mapper }

def GrpczMiddleware.WithResourceFromFields (m : GrpczMiddleware) (fields : List String) :
    GrpczMiddleware :=
  match fields with
  | ["*"] => { m with resourceMappers := m.resourceMappers ++ [reqMessageResourceMapper] }
  | _ => { m with resourceMappers := m.resourceMappers ++ [messageResourceMapper [] fields] }

def GrpczMiddleware.WithResourceFromMessageByPath (m : GrpczMiddleware)
    (fieldsByPath : List (String × List String)) (defaults : List String) : GrpczMiddleware :=
  { m with resourceMappers := m.resourceMappers ++ [messageResourceMapper fieldsByPath defaults] }

def GrpczMiddleware.WithResourceFromContextValue (m : GrpczMiddleware)
    (ctxKey : String) (field : String) : GrpczMiddleware :=
  { m with resourceMappers := m.resourceMappers ++ [contextValueResourceMapper ctxKey field] }

def GrpczMiddleware.WithResourceMapper (m : GrpczMiddleware) (mapper : ResourceMapper) :
    GrpczMiddleware :=
  { m with resourceMappers := m.resourceMappers ++ [mapper] }

def GrpczMiddleware.isAllowedMethod (m : GrpczMiddleware) (ctx : Ctx) : Bool :=
  m.allowedMethods.Contains ctx.method

def GrpczMiddleware.resourceContext (m : GrpczMiddleware) (ctx : Ctx) (req : Req) :
    Except GoErr Struct :=
  newStruct (m.resourceMappers.foldl (fun res mapper => mapper ctx req res) [])

/-- `grpcz.Middleware.authorize(ctx, req)` (with the backend client and the JWT
oracle as explicit parameters). -/
def GrpczMiddleware.authorize (jwtSub : String → Option String) (m : GrpczMiddleware)
    (client : Client) (ctx : Ctx) (req : Req) : AuthzResult :=
  if m.isAllowedMethod ctx then ⟨Option.none, false⟩
  else
    let policyContext := DefaultPolicyContext m.policy
    let policyContext :=
      match m.policyMapper with
      | some f => { policyContext with path := f ctx req }
      | Option.none => policyContext
    if m.ignoredPaths.Contains policyContext.path then ⟨Option.none, false⟩
    else
      match m.resourceContext ctx req with
      | .error e => ⟨some (.wrap "failed to apply resource mapper" e), false⟩
      | .ok resource =>
        let isReq : IsRequest :=
          { identityContext := m.Identity.build jwtSub ctx req
            policyContext := policyContext
            resourceContext := resource
            policyInstance := DefaultPolicyInstance m.policy }
        match client isReq with
        | .error e => ⟨some (.wrap "authorization call failed" e), true⟩
        | .ok resp =>
          match resp.decisions with
          | [] => ⟨some (.withContext .invalidDecision), true⟩
          | d :: _ =>
            if ¬ d.is then ⟨some (.withContext .authorizationFailed), true⟩
            else ⟨Option.none, true⟩

/-- `grpcz.Middleware.Unary()` applied to a request. -/
def GrpczMiddleware.Unary (jwtSub : String → Option String) (m : GrpczMiddleware)
    (client : Client) (ctx : Ctx) (req : Req) : UnaryOutcome :=
  match (m.authorize jwtSub client ctx req).err with
  | some e => .errorReturned e
  | Option.none => .handlerInvoked

/-! ## Legacy `grpc.Middleware`

Unlike `grpcz`, the legacy middleware stores `policyContext` by value on the
middleware struct and `authorize` assigns the resolved path to it
(`m.policyContext.Path = m.policyMapper(ctx, req)`), so `authorize` is a state
transformer returning the updated middleware. -/

structure GrpcMiddleware where
  Identity : IdentityBuilder
  policyContext : PolicyContext
  policyInstance : PolicyInstance
  policyMapper : Option StringMapper := Option.none
  resourceMappers : List ResourceMapper := []
  ignoredMethods : List String := []

/-- `grpc.New(authzClient, policy)`. -/
def GrpcMiddleware.New (policy : Policy) : GrpcMiddleware :=
  { Identity := (({} : IdentityBuilder).FromMetadata "authorization")
    policyContext := DefaultPolicyContext policy
    policyInstance := DefaultPolicyInstance policy
    policyMapper := if policy.path ≠ "" then Option.none else some (methodPolicyMapper "") }

def GrpcMiddleware.WithIgnoredMethods (m : GrpcMiddleware) (methods : List String) :
    GrpcMiddleware :=
  { m with ignoredMethods := methods }

def GrpcMiddleware.resourceContext (m : GrpcMiddleware) (ctx : Ctx) (req : Req) :
    Except GoErr Struct :=
  newStruct (m.resourceMappers.foldl (fun res mapper => mapper ctx req res) [])

/-- `grpc.Middleware.authorize(ctx, req)`: returns the error outcome together
with the (possibly mutated) middleware. -/
def GrpcMiddleware.authorize (jwtSub : String → Option String) (m : GrpcMiddleware)
    (client : Client) (ctx : Ctx) (req : Req) : AuthzResult × GrpcMiddleware :=
  let m :=
    match m.policyMapper with
    | some f => { m with policyContext := { m.policyContext with path := f ctx req } }
    | Option.none => m
  match m.resourceContext ctx req with
  | .error e => (⟨some (.wrap "failed to apply resource mapper" e), false⟩, m)
  | .ok resource =>
    if m.ignoredMethods.contains m.policyContext.path then (⟨Option.none, false⟩, m)
    else
      let isReq : IsRequest :=
        { identityContext := m.Identity.build jwtSub ctx req
          policyContext := m.policyContext
          resourceContext := resource
          policyInstance := m.policyInstance }
      match client isReq with
      | .error e => (⟨some (.wrap "authorization call failed" e), true⟩, m)
      | .ok resp =>
        match resp.decisions with
        | [] => (⟨some .invalidDecision, true⟩, m)
        | d :: _ =>
          if ¬ d.is then (⟨some .authorizationFailed, true⟩, m)
          else (⟨Option.none, true⟩, m)

/-- `grpc.Middleware.Unary()` applied to a request. -/
def GrpcMiddleware.Unary (jwtSub : String → Option String) (m : GrpcMiddleware)
    (client : Client) (ctx : Ctx) (req : Req) : UnaryOutcome × GrpcMiddleware :=
  let (res, m) := m.authorize jwtSub client ctx req
  match res.err with
  | some e => (.errorReturned e, m)
  | Option.none => (.handlerInvoked, m)

/-! ## `grpcz.RebacMiddleware` (ReBAC policy-check over the authorizer) -/

def MaxPermissionLen : Nat := 64

/-- `grpcz.permissionFromMethod(ctx)`: lower-cased dotted method path,
truncated to `MaxPermissionLen` (byte truncation in Go; identical for ASCII
method strings). -/
def permissionFromMethod (ctx : Ctx) : String :=
  let method := ctx.method
  let path := goToLower (ToPolicyPath method)
  if goLen path > MaxPermissionLen then goTake path MaxPermissionLen else path

structure RebacMiddleware where
  policy : Policy
  Identity : IdentityBuilder
  policyMapper : Option StringMapper := Option.none
  resourceMappers : List ResourceMapper := []
  subjType : String := ""
  objType : String := ""
  ignoredPaths : Lookup := []
  allowedMethods : Lookup := []

/-- `grpcz.NewRebacMiddleware(authzClient, policy)`. -/
def RebacMiddleware.New (policy : Policy) : RebacMiddleware :=
  { Identity := ((({} : IdentityBuilder).Subject).FromMetadata "authorization")
    policy := policy
    policyMapper := if policy.path ≠ "" then Option.none else some (methodPolicyMapper "") }

/-- `grpcz.RebacMiddleware.WithIgnoredMethods(methods)`: the configured paths
are lower-cased before being stored. -/
def RebacMiddleware.WithIgnoredMethods (c : RebacMiddleware) (methods : List String) :
    RebacMiddleware :=
  { c with ignoredPaths := NewLookup (methods.map goToLower) }

def RebacMiddleware.WithAllowedMethods (c : RebacMiddleware) (methods : List String) :
    RebacMiddleware :=
  { c with allowedMethods := NewLookup methods }

def RebacMiddleware.WithSubjectType (c : RebacMiddleware) (value : String) : RebacMiddleware :=
  { c with subjType := value }

def RebacMiddleware.WithObjectType (c : RebacMiddleware) (value : String) : RebacMiddleware :=
  { c with objType := value }

def RebacMiddleware.isAllowedMethod (c : RebacMiddleware) (ctx : Ctx) : Bool :=
  c.allowedMethods.Contains ctx.method

def RebacMiddleware.subjectType (c : RebacMiddleware) : String :=
  if c.subjType ≠ "" then c.subjType else DefaultSubjType

def RebacMiddleware.objectType (c : RebacMiddleware) : String :=
  c.objType

/-- `grpcz.RebacMiddleware.policyContext()`. -/
def RebacMiddleware.policyContext (c : RebacMiddleware) : PolicyContext :=
  let policyContext := DefaultPolicyContext c.policy
  let policyContext := { policyContext with path := "" }
  let policyContext :=
    if c.policy.path ≠ "" then { policyContext with path := c.policy.path } else policyContext
  if policyContext.path = "" then
    let path := if c.policy.root ≠ "" then c.policy.root ++ "." ++ "check" else "check"
    { policyContext with path := path }
  else policyContext

def RebacMiddleware.resourceContext (c : RebacMiddleware) (ctx : Ctx) (req : Req) :
    Except GoErr Struct :=
  let res := c.resourceMappers.foldl (fun res mapper => mapper ctx req res) []
  let res := mapSet res "object_type" (.str c.objectType)
  let res := mapSet res "relation" (.str (permissionFromMethod ctx))
  let res := mapSet res "subject_type" (.str c.subjectType)
  newStruct res

/-- `grpcz.RebacMiddleware.authorize(ctx, req)`. -/
def RebacMiddleware.authorize (jwtSub : String → Option String) (c : RebacMiddleware)
    (client : Client) (ctx : Ctx) (req : Req) : AuthzResult :=
  if c.isAllowedMethod ctx then ⟨Option.none, false⟩
  else
    let policyContext := c.policyContext
    match c.resourceContext ctx req with
    | .error e => ⟨some (.wrap "failed to apply resource mapper" e), false⟩
    | .ok resource =>
      if c.ignoredPaths.Contains (permissionFromMethod ctx) then ⟨Option.none, false⟩
      else
        let isReq : IsRequest :=
          { identityContext := c.Identity.build jwtSub ctx req
            policyContext := policyContext
            resourceContext := resource
            policyInstance := DefaultPolicyInstance c.policy }
        match client isReq with
        | .error e => ⟨some (.wrap "authorization call failed" e), true⟩
        | .ok resp =>
          match resp.decisions with
          | [] => ⟨some .invalidDecision, true⟩
          | d :: _ =>
            if ¬ d.is then ⟨some .authorizationFailed, true⟩
            else ⟨Option.none, true⟩

/-- `grpcz.RebacMiddleware.Unary()` applied to a request. -/
def RebacMiddleware.Unary (jwtSub : String → Option String) (c : RebacMiddleware)
    (client : Client) (ctx : Ctx) (req : Req) : UnaryOutcome :=
  match (c.authorize jwtSub client ctx req).err with
  | some e => .errorReturned e
  | Option.none => .handlerInvoked

/-! ## `grpcz.CheckMiddleware` (ReBAC relation check against the directory) -/

abbrev ObjectMapper := Ctx → Req → String × String
abbrev Filter := Ctx → Req → Bool

structure objectSpecifier where
  id : String := ""
  objType : String := ""
  idMapper : Option StringMapper := Option.none
  mapper : Option ObjectMapper := Option.none

/-- `objectSpecifier.resolve(ctx, req)`: explicit combined mapper > id-only
mapper > static values. -/
def objectSpecifier.resolve (os : objectSpecifier) (ctx : Ctx) (req : Req) : String × String :=
  match os.mapper with
  | some f => f ctx req
  | Option.none =>
    match os.idMapper with
    | some f => (os.objType, f ctx req)
    | Option.none => (os.objType, os.id)

/-- `grpcz.CheckOptions`; the anonymous `rel {name, mapper}` struct is
flattened into two fields. -/
structure CheckOptions where
  obj : objectSpecifier := {}
  subj : objectSpecifier := {}
  relName : String := ""
  relMapper : Option StringMapper := Option.none
  filters : List Filter := []

def CheckOptions.object (o : CheckOptions) (ctx : Ctx) (req : Req) : String × String :=
  o.obj.resolve ctx req

/-- `CheckOptions.subject(ctx, req)`: the subject type defaults to
`internal.DefaultSubjType` when it resolves empty. -/
def CheckOptions.subject (o : CheckOptions) (ctx : Ctx) (req : Req) : String × String :=
  let (subjType, subjID) := o.subj.resolve ctx req
  (if subjType = "" then DefaultSubjType else subjType, subjID)

def CheckOptions.relation (o : CheckOptions) (ctx : Ctx) (req : Req) : String :=
  match o.relMapper with
  | some f => f ctx req
  | Option.none => o.relName

def relationFromMethod : StringMapper :=
  fun ctx _ => permissionFromMethod ctx

structure CheckMiddleware where
  opts : CheckOptions

/-- `grpcz.NewCheckMiddleware(client, options...)`: applies the option
functions in order and installs the method-derived relation mapper when no
relation was configured. -/
def NewCheckMiddleware (options : List (CheckOptions → CheckOptions)) : CheckMiddleware :=
  let opts := options.foldl (fun o f => f o) {}
  let opts :=
    if opts.relName = "" ∧ opts.relMapper.isNone then
      { opts with relMapper := some relationFromMethod }
    else opts
  ⟨opts⟩

/-- `grpcz.WithRelation(name)`. -/
def WithRelation (name : String) : CheckOptions → CheckOptions :=
  fun o => { o with relName := name }

/-- `grpcz.WithObjectType(objType)`. -/
def WithObjectType (objType : String) : CheckOptions → CheckOptions :=
  fun o => { o with obj := { o.obj with objType := objType } }

/-- `grpcz.WithObjectID(id)`. -/
def WithObjectID (id : String) : CheckOptions → CheckOptions :=
  fun o => { o with obj := { o.obj with id := id } }

/-- `grpcz.WithObjectIDFromContextValue(ctxKey)`. -/
def WithObjectIDFromContextValue (ctxKey : String) : CheckOptions → CheckOptions :=
  fun o => { o with obj := { o.obj with idMapper := some (fun ctx _ => ValueOrEmpty ctx ctxKey) } }

/-- `grpcz.WithObjectMapper(mapper)`. -/
def WithObjectMapper (mapper : ObjectMapper) : CheckOptions → CheckOptions :=
  fun o => { o with obj := { o.obj with mapper := some mapper } }

/-- `grpcz.WithSubjectType(subjType)`. -/
def WithSubjectType (subjType : String) : CheckOptions → CheckOptions :=
  fun o => { o with subj := { o.subj with objType := subjType } }

/-- `grpcz.WithSubjectID(id)`. -/
def WithSubjectID (id : String) : CheckOptions → CheckOptions :=
  fun o => { o with subj := { o.subj with id := id } }

/-- `grpcz.WithMethodFilter(methods...)`. -/
def WithMethodFilter (methods : List String) : CheckOptions → CheckOptions :=
  let lookup := NewLookup methods
  fun o =>
    { o with filters := o.filters ++ [fun ctx _ => lookup.Contains ctx.method] }

/-- `grpcz.CheckMiddleware.authorize(ctx, req)`. -/
def CheckMiddleware.authorize (c : CheckMiddleware) (client : DsClient) (ctx : Ctx)
    (req : Req) : AuthzResult :=
  if c.opts.filters.any (fun filter => filter ctx req) then ⟨Option.none, false⟩
  else
    let (objType, objID) := c.opts.object ctx req
    if objID = "" then ⟨some (.errMsg "object ID is empty"), false⟩
    else if objType = "" then ⟨some (.errMsg "object type is empty"), false⟩
    else
      let (subjType, subjID) := c.opts.subject ctx req
      if subjID = "" then ⟨some (.errMsg "subject ID is empty"), false⟩
      else if subjType = "" then ⟨some (.errMsg "subject type is empty"), false⟩
      else
        let check : CheckRequest :=
          { objectType := objType
            objectId := objID
            relation := c.opts.relation ctx req
            subjectType := subjType
            subjectId := subjID }
        match client check with
        | .error e => ⟨some (.wrap "check call failed" e), true⟩
        | .ok allowed =>
          if ¬ allowed.check then ⟨some (.withContext .authorizationFailed), true⟩
          else ⟨Option.none, true⟩

/-- `grpcz.CheckMiddleware.Unary()` applied to a request. -/
def CheckMiddleware.Unary (c : CheckMiddleware) (client : DsClient) (ctx : Ctx)
    (req : Req) : UnaryOutcome :=
  match (c.authorize client ctx req).err with
  | some e => .errorReturned e
  | Option.none => .handlerInvoked

/-! ## `httpz.Middleware` (net/http policy middleware)

The incoming `*http.Request` is modelled by the pieces the middleware reads:
method, URL path, headers and string-valued context values.  The `httpz`
identity builder's own source is not among the available files (only its
callers and tests are); the middleware's `Identity.Build(r)` call is therefore
modelled as an abstract per-request resolver — none of the properties below
depend on how the identity value is produced. -/

structure HttpRequest where
  method : String := ""
  urlPath : String := ""
  headers : List (String × String) := []
  values : List (String × String) := []

abbrev HttpStringMapper := HttpRequest → String
abbrev HttpResourceMapper := HttpRequest → ResMap → ResMap

structure HttpzMiddleware where
  IdentityBuild : HttpRequest → IdentityContext
  policy : Policy
  policyMapper : Option HttpStringMapper := Option.none
  resourceMappers : List HttpResourceMapper := []

/-- Outcome of an HTTP middleware handler around a downstream handler. -/
inductive HandlerOutcome where
  | downstream
  | errorResponse (status : Nat)
deriving DecidableEq, Repr

def HttpzMiddleware.resourceContext (m : HttpzMiddleware) (r : HttpRequest) :
    Except GoErr Struct :=
  newStruct (m.resourceMappers.foldl (fun res mapper => mapper r res) [])

/-- `httpz.Middleware.is(ctx, identityContext, policyContext, resourceContext)`:
the decision invoker.  A `(false, err)` return is `.error err`, a `(b, nil)`
return is `.ok b`; the `len(resp.GetDecisions()) != 1` guard followed by
`Decisions[0].GetIs()` is expressed as a singleton match. -/
def HttpzMiddleware.is (m : HttpzMiddleware) (client : Client)
    (identityContext : IdentityContext) (policyContext : PolicyContext)
    (resourceContext : Struct) : Except GoErr Bool :=
  let isRequest : IsRequest :=
    { identityContext := identityContext
      policyContext := policyContext
      resourceContext := resourceContext
      policyInstance := DefaultPolicyInstance m.policy }
  match client isRequest with
  | .error e => .error (.withContext e)
  | .ok resp =>
    match resp.decisions with
    | [d] => .ok d.is
    | _ => .error (.withContext .invalidDecision)

/-- `httpz.Middleware.Handler(next)` applied to a request: 500 on a resource
or decision error, 403 on deny, downstream on allow. -/
def HttpzMiddleware.Handler (m : HttpzMiddleware) (client : Client) (r : HttpRequest) :
    HandlerOutcome :=
  let policyContext := DefaultPolicyContext m.policy
  let policyContext :=
    match m.policyMapper with
    | some f => { policyContext with path := f r }
    | Option.none => policyContext
  match m.resourceContext r with
  | .error _ => .errorResponse 500
  | .ok resource =>
    match m.is client (m.IdentityBuild r) policyContext resource with
    | .error _ => .errorResponse 500
    | .ok allowed =>
      if ¬ allowed then .errorResponse 403
      else .downstream

/-- `httpz.getPathSegments(r)`. -/
def httpzGetPathSegments (r : HttpRequest) : List String :=
  goSplit (goTrim r.urlPath "/") "/"

/-- `httpz.urlPolicyPathMapper(prefix)`. -/
def httpzUrlPolicyPathMapper (pfx : String) : HttpStringMapper :=
  fun r =>
    let policyPath := [r.method] ++ httpzGetPathSegments r
    let policyPath := if pfx ≠ "" then [goTrim pfx "."] ++ policyPath else policyPath
    goJoin policyPath "."

/-! ## `gorillaz.Middleware` URL-template policy-path mapping

A gorilla/mux request additionally carries the matched route's path variables
and path template; `GetPathTemplate` can fail (`Option.none`), in which case
the path is taken to be empty. -/

structure MuxRequest where
  method : String := ""
  urlPath : String := ""
  muxVars : List (String × String) := []
  pathTemplate : Option String := Option.none

/-- `gorillaz.getPathSegments(r)`: when the route has variables, the matched
route template replaces the raw URL path. -/
def gorillazGetPathSegments (r : MuxRequest) : List String :=
  let path :=
    if r.muxVars.length > 0 then
      match r.pathTemplate with
      | some t => t
      | Option.none => ""
    else r.urlPath
  goSplit (goTrim path "/") "/"

/-- `gorillaz.urlPolicyPathMapper(prefix)`: method first, then the template
segments with `{name}` placeholders rewritten to `__name`, prefixed by the
dot-trimmed prefix when non-empty, all joined with dots. -/
def gorillazUrlPolicyPathMapper (pfx : String) (r : MuxRequest) : String :=
  let policyPath := [r.method]
  let segments := gorillazGetPathSegments r
  let segments :=
    if r.muxVars.length > 0 then
      segments.map (fun segment =>
        if goHasPrefix segment "\x7b" && goHasSuffix segment "\x7d" then
          "__" ++ String.mk ((segment.toList.drop 1).dropLast)
        else segment)
    else segments
  let policyPath := policyPath ++ segments
  let policyPath := if pfx ≠ "" then [goTrim pfx "."] ++ policyPath else policyPath
  goJoin policyPath "."

/-! ## Shared fixtures for concrete instantiations -/

/-- JWT oracle that never parses (every parse attempt fails, so the raw value
is kept). -/
def noJwt : String → Option String := fun _ => Option.none

def pPolicy : Policy := { name := "p", path := "GET.foo", decision := "allowed" }

def allowClient : Client := fun _ => .ok ⟨[⟨"allowed", true⟩]⟩

def denyClient : Client := fun _ => .ok ⟨[⟨"allowed", false⟩]⟩

def twoDecisions : List Decision := [⟨"allowed", true⟩, ⟨"other", true⟩]

def twoDecClient : Client := fun _ => .ok ⟨twoDecisions⟩

/-- A helper naming the policy path a `grpcz` middleware resolves for a
request: the policy mapper's output when one is registered, the static
configured path otherwise. -/
def GrpczMiddleware.resolvedPath (m : GrpczMiddleware) (ctx : Ctx) (req : Req) : String :=
  match m.policyMapper with
  | some f => f ctx req
  | Option.none => m.policy.path

/-- The same helper for the legacy `grpc` middleware. -/
def GrpcMiddleware.resolvedPath (m : GrpcMiddleware) (ctx : Ctx) (req : Req) : String :=
  match m.policyMapper with
  | some f => f ctx req
  | Option.none => m.policyContext.path

/-! ## Claim C5 — allowed-methods bypass -/

/-- C5: for both gRPC middleware variants configured with `WithAllowedMethods`,
a call whose full gRPC method string is in the configured set is allowed
through without any backend call, regardless of identity, policy-path, or
resource configuration. -/
theorem allowed_methods_bypass (jwtSub : String → Option String)
    (m : GrpczMiddleware) (c : RebacMiddleware) (methods : List String)
    (client : Client) (ctx : Ctx) (req : Req) (h : ctx.method ∈ methods) :
    (m.WithAllowedMethods methods).authorize jwtSub client ctx req =
      ⟨Option.none, false⟩ ∧
    (c.WithAllowedMethods methods).authorize jwtSub client ctx req =
      ⟨Option.none, false⟩ := by
  constructor
  · simp only [GrpczMiddleware.authorize, GrpczMiddleware.isAllowedMethod,
      GrpczMiddleware.WithAllowedMethods, Lookup.Contains, NewLookup]
    rw [if_pos]
    simpa using h
  · simp only [RebacMiddleware.authorize, RebacMiddleware.isAllowedMethod,
      RebacMiddleware.WithAllowedMethods, Lookup.Contains, NewLookup]
    rw [if_pos]
    simpa using h

/-- C5 witness: a concrete bypassed call. -/
theorem allowed_methods_bypass_witness :
    "/grpc.reflection.v1.ServerReflection/ServerReflectionInfo" ∈
      ["/grpc.reflection.v1.ServerReflection/ServerReflectionInfo"] ∧
    ((GrpczMiddleware.New pPolicy).WithAllowedMethods
        ["/grpc.reflection.v1.ServerReflection/ServerReflectionInfo"]).authorize
        noJwt denyClient
        { method := "/grpc.reflection.v1.ServerReflection/ServerReflectionInfo" }
        Option.none =
      ⟨Option.none, false⟩ :=
  ⟨by decide,
   (allowed_methods_bypass noJwt (GrpczMiddleware.New pPolicy) (RebacMiddleware.New pPolicy)
      ["/grpc.reflection.v1.ServerReflection/ServerReflectionInfo"] denyClient
      { method := "/grpc.reflection.v1.ServerReflection/ServerReflectionInfo" }
      Option.none (by decide)).1⟩

/-! ## Claim C9 — gorilla/mux URL-template policy path -/

/-- C9: a request matched to route template `"/products/{id}"` with method
`"POST"` under prefix `"myapp"` resolves to the policy path
`"myapp.POST.products.__id"`. -/
theorem gorilla_url_policy_path (r : MuxRequest)
    (hm : r.method = "POST") (ht : r.pathTemplate = some "/products/{id}")
    (hv : r.muxVars.length > 0) :
    gorillazUrlPolicyPathMapper "myapp" r = "myapp.POST.products.__id" := by
  simp only [gorillazUrlPolicyPathMapper, gorillazGetPathSegments, hm, ht, if_pos hv]
  decide

/-- C9 witness: a concrete matched request. -/
theorem gorilla_url_policy_path_witness :
    gorillazUrlPolicyPathMapper "myapp"
      { method := "POST", urlPath := "/products/42", muxVars := [("id", "42")],
        pathTemplate := some "/products/{id}" } = "myapp.POST.products.__id" :=
  gorilla_url_policy_path
    { method := "POST", urlPath := "/products/42", muxVars := [("id", "42")],
      pathTemplate := some "/products/{id}" }
    rfl rfl (by decide)

/-! ## Claims C6 and C7 — identity builder `None()` and the NONE/empty invariant -/

/-- Helper: the identity context returned by `Identity.Context()` has kind
NONE whenever its value is empty. -/
theorem context_forces_none_on_empty (id : InternalIdentity)
    (h : (id.Context).identity = "") : (id.Context).type = .none := by
  unfold InternalIdentity.Context at *
  by_cases hc : id.context.identity = ""
  · simp [hc]
  · rw [if_neg hc] at h
    exact absurd h hc

/-- C6 counterexample: with a metadata source registered before `None()`, a
request carrying that metadata builds the identity `{NONE, "george"}`, not
`{NONE, ""}` — `None()` does not clear a previously declared source. -/
theorem none_last_keeps_mapper_value :
    (((({} : IdentityBuilder).FromMetadata "authorization").None).build noJwt
        { metadata := [("authorization", ["george"])] } Option.none =
      ⟨.none, "george"⟩) ∧
    (⟨.none, "george"⟩ : IdentityContext) ≠ ⟨.none, ""⟩ :=
  ⟨by decide, by decide⟩

/-- C6 amended: when `None()` is the last configuration call and no *custom*
mapper is registered, the built identity's kind is NONE; the value is empty
whenever no source is registered or the registered source (metadata field /
context value) resolves to nothing — but a previously declared source stays
active and its non-empty resolved value is kept. -/
theorem none_last_forces_kind (jwtSub : String → Option String) (b : IdentityBuilder)
    (ctx : Ctx) (req : Req)
    (hcustom : ∀ f, b.mapper ≠ some (.custom f)) :
    ((b.None).build jwtSub ctx req).type = .none ∧
    (b.mapper = Option.none → (b.None).build jwtSub ctx req = ⟨.none, ""⟩) ∧
    (∀ field, b.mapper = some (.fromMetadata field) → mdGet ctx.metadata field = [] →
      (b.None).build jwtSub ctx req = ⟨.none, ""⟩) ∧
    (∀ key, b.mapper = some (.fromContextValue key) →
      (b.None).build jwtSub ctx req = ⟨.none, if ValueOrEmpty ctx key = "" then "" else ValueOrEmpty ctx key⟩) := by
  have hmain : ((b.None).build jwtSub ctx req).type = .none := by
    rcases hb : b.mapper with _ | mp
    · simp [IdentityBuilder.build, IdentityBuilder.None, hb, NewIdentity,
        InternalIdentity.Context]
    · rcases mp with field | key | f
      · simp only [IdentityBuilder.build, IdentityBuilder.None, hb, NewIdentity]
        rcases mdGet ctx.metadata field with _ | ⟨v, vs⟩
        · simp [InternalIdentity.Context]
        · simp only [InternalIdentity.ID, InternalIdentity.Context]
          split <;> simp
      · simp only [IdentityBuilder.build, IdentityBuilder.None, hb, NewIdentity,
          InternalIdentity.ID, InternalIdentity.Context]
        split <;> simp
      · exact absurd hb (hcustom f)
  refine ⟨hmain, ?_, ?_, ?_⟩
  · intro hb
    simp [IdentityBuilder.build, IdentityBuilder.None, hb, NewIdentity,
      InternalIdentity.Context]
  · intro field hb hmd
    simp [IdentityBuilder.build, IdentityBuilder.None, hb, hmd, NewIdentity,
      InternalIdentity.Context]
  · intro key hb
    simp only [IdentityBuilder.build, IdentityBuilder.None, hb, NewIdentity,
      InternalIdentity.ID, InternalIdentity.Context]
    split <;> simp_all

/-- C6 witness: a builder whose metadata source resolves to nothing builds the
anonymous identity after `None()`. -/
theorem none_last_forces_kind_witness :
    ((((({} : IdentityBuilder).FromMetadata "authorization").None).build noJwt {} Option.none).type
      = .none) ∧
    ((((({} : IdentityBuilder).FromMetadata "authorization").None).build noJwt {} Option.none)
      = ⟨.none, ""⟩) :=
  have h := none_last_forces_kind noJwt (({} : IdentityBuilder).FromMetadata "authorization")
    {} Option.none (by intro f h; simp [IdentityBuilder.FromMetadata] at h)
  ⟨h.1, h.2.2.1 "authorization" rfl (by decide)⟩

/-- C7 counterexample: a built identity with kind NONE and a non-empty value —
a context-value source registered before `None()` resolves to `"george"`,
violating `kind = NONE ⇒ value = ""`. -/
theorem none_kind_with_nonempty_value :
    ((((({} : IdentityBuilder).Subject).FromContextValue "user").None).build noJwt
        { values := [("user", "george")] } Option.none =
      ⟨.none, "george"⟩) ∧
    ("george" : String) ≠ "" :=
  ⟨by decide, by decide⟩

/-- C7 amended: the direction the code does enforce — whenever the resolved
identity value is the empty string, the built identity's kind is forced to
NONE (`Identity.Context()` calls `None()` on an empty value). -/
theorem empty_value_forces_none_kind (jwtSub : String → Option String)
    (b : IdentityBuilder) (ctx : Ctx) (req : Req)
    (h : (b.build jwtSub ctx req).identity = "") :
    (b.build jwtSub ctx req).type = .none := by
  unfold IdentityBuilder.build at *
  exact context_forces_none_on_empty _ h

/-- C7 witness: the default builder on an empty request builds the anonymous
identity. -/
theorem empty_value_forces_none_kind_witness :
    ((({} : IdentityBuilder).build noJwt {} Option.none).identity = "") ∧
    (({} : IdentityBuilder).build noJwt {} Option.none).type = .none :=
  ⟨by decide, empty_value_forces_none_kind noJwt {} {} Option.none (by decide)⟩

/-! ## Claim C8 — ReBAC check fails fast on empty object type / ID -/

def allowDs : DsClient := fun _ => .ok ⟨true⟩

/-- C8: in the ReBAC check middleware, when no filter matches, an empty
resolved object ID or object type fails fast with the local configuration
error (`"object ID is empty"` / `"object type is empty"`) and the backend
relation-check RPC is not issued.  Moreover the object side has no type
default (an unset object type resolves to the empty string), while the
subject type defaults to `"user"` whenever it resolves empty. -/
theorem rebac_check_empty_object_fails_fast (c : CheckMiddleware) (client : DsClient)
    (ctx : Ctx) (req : Req)
    (hfilters : c.opts.filters.any (fun filter => filter ctx req) = false) :
    ((c.opts.object ctx req).2 = "" →
      c.authorize client ctx req = ⟨some (.errMsg "object ID is empty"), false⟩) ∧
    ((c.opts.object ctx req).2 ≠ "" → (c.opts.object ctx req).1 = "" →
      c.authorize client ctx req = ⟨some (.errMsg "object type is empty"), false⟩) ∧
    (c.opts.obj.mapper = Option.none → c.opts.obj.objType = "" →
      (c.opts.object ctx req).1 = "") ∧
    ((c.opts.subj.resolve ctx req).1 = "" →
      (c.opts.subject ctx req).1 = DefaultSubjType) := by
  refine ⟨?_, ?_, ?_, ?_⟩
  · intro hid
    unfold CheckMiddleware.authorize
    rw [if_neg (by simp [hfilters])]
    rcases hobj : c.opts.object ctx req with ⟨t, i⟩
    rw [hobj] at hid
    simp at hid
    simp [hid]
  · intro hid htype
    unfold CheckMiddleware.authorize
    rw [if_neg (by simp [hfilters])]
    rcases hobj : c.opts.object ctx req with ⟨t, i⟩
    rw [hobj] at hid htype
    simp at hid htype
    simp [hid, htype]
  · intro hmap htype
    unfold CheckOptions.object objectSpecifier.resolve
    rw [hmap]
    rcases hidm : c.opts.obj.idMapper with _ | f <;> simp [htype]
  · intro hsub
    unfold CheckOptions.subject
    rcases hr : c.opts.subj.resolve ctx req with ⟨t, i⟩
    rw [hr] at hsub
    simp at hsub
    simp [hsub]

/-- C8 witness: a check middleware with a configured object ID but no object
type fails with `"object type is empty"` without calling the backend. -/
theorem rebac_check_empty_object_fails_fast_witness :
    ((NewCheckMiddleware [WithObjectID "42"]).opts.object {} Option.none).2 ≠ "" ∧
    ((NewCheckMiddleware [WithObjectID "42"]).opts.object {} Option.none).1 = "" ∧
    (NewCheckMiddleware [WithObjectID "42"]).authorize allowDs {} Option.none =
      ⟨some (.errMsg "object type is empty"), false⟩ :=
  have h := rebac_check_empty_object_fails_fast (NewCheckMiddleware [WithObjectID "42"])
    allowDs {} Option.none rfl
  ⟨by decide, by decide, h.2.1 (by decide) (by decide)⟩

/-! ## Claim C2 — downstream handler invoked iff an allow was obtained -/

/-- The policy context an `httpz` handler sends for a request: the mapper's
path when one is registered, the configured policy otherwise (naming the value
`Handler` computes inline). -/
def HttpzMiddleware.requestPolicyContext (m : HttpzMiddleware) (r : HttpRequest) :
    PolicyContext :=
  match m.policyMapper with
  | some f => { DefaultPolicyContext m.policy with path := f r }
  | Option.none => DefaultPolicyContext m.policy

/-- C2: each enforcement wrapper invokes the downstream handler exactly when
the authorization step let the request through.  For the HTTP handler the
decision invoker's explicit allow is equivalent to reaching the downstream
handler, a well-formed deny yields 403, and any decision error yields 500; for
the three gRPC interceptors the handler runs iff `authorize` returned no
error, and an `authorize` error is returned to the caller in place of the
handler's response; a single-decision deny surfaces as the
authorization-failed error. -/
theorem enforcement_downstream_iff_allow
    (jwtSub : String → Option String)
    (hm : HttpzMiddleware) (hclient : Client) (hr : HttpRequest)
    (gm : GrpczMiddleware) (lm : GrpcMiddleware) (rm : RebacMiddleware)
    (gclient lclient rclient : Client) (ctx : Ctx) (req : Req) (resource : Struct)
    (hres : hm.resourceContext hr = .ok resource) :
    (hm.Handler hclient hr = .downstream ↔
      hm.is hclient (hm.IdentityBuild hr) (hm.requestPolicyContext hr) resource = .ok true) ∧
    (hm.is hclient (hm.IdentityBuild hr) (hm.requestPolicyContext hr) resource = .ok false →
      hm.Handler hclient hr = .errorResponse 403) ∧
    (∀ e, hm.is hclient (hm.IdentityBuild hr) (hm.requestPolicyContext hr) resource = .error e →
      hm.Handler hclient hr = .errorResponse 500) ∧
    (gm.Unary jwtSub gclient ctx req = .handlerInvoked ↔
      (gm.authorize jwtSub gclient ctx req).err = Option.none) ∧
    (∀ e, (gm.authorize jwtSub gclient ctx req).err = some e →
      gm.Unary jwtSub gclient ctx req = .errorReturned e) ∧
    ((lm.Unary jwtSub lclient ctx req).1 = .handlerInvoked ↔
      (lm.authorize jwtSub lclient ctx req).1.err = Option.none) ∧
    (∀ e, (lm.authorize jwtSub lclient ctx req).1.err = some e →
      (lm.Unary jwtSub lclient ctx req).1 = .errorReturned e) ∧
    (rm.Unary jwtSub rclient ctx req = .handlerInvoked ↔
      (rm.authorize jwtSub rclient ctx req).err = Option.none) ∧
    (∀ e, (rm.authorize jwtSub rclient ctx req).err = some e →
      rm.Unary jwtSub rclient ctx req = .errorReturned e) ∧
    (gm.allowedMethods = [] → gm.ignoredPaths = [] → ∀ n,
      gclient = (fun _ => .ok ⟨[⟨n, false⟩]⟩) →
      gm.Unary jwtSub gclient ctx req = .errorReturned (.withContext .authorizationFailed)) := by
  have hhandler :
      hm.Handler hclient hr =
        match hm.is hclient (hm.IdentityBuild hr) (hm.requestPolicyContext hr) resource with
        | .error _ => .errorResponse 500
        | .ok allowed => if ¬ allowed then .errorResponse 403 else .downstream := by
    unfold HttpzMiddleware.Handler HttpzMiddleware.requestPolicyContext
    rw [hres]
  refine ⟨?_, ?_, ?_, ?_, ?_, ?_, ?_, ?_, ?_, ?_⟩
  · rw [hhandler]
    rcases his : hm.is hclient (hm.IdentityBuild hr) (hm.requestPolicyContext hr) resource with e | b
    · simp
    · rcases b <;> simp
  · intro hd
    rw [hhandler, hd]
    rfl
  · intro e hd
    rw [hhandler, hd]
  · unfold GrpczMiddleware.Unary
    rcases (gm.authorize jwtSub gclient ctx req).err with _ | e <;> simp
  · intro e he
    unfold GrpczMiddleware.Unary
    rw [he]
  · unfold GrpcMiddleware.Unary
    rcases (lm.authorize jwtSub lclient ctx req) with ⟨res, m'⟩
    rcases res with ⟨err, called⟩
    rcases err with _ | e <;> simp
  · intro e he
    unfold GrpcMiddleware.Unary
    rcases hres' : (lm.authorize jwtSub lclient ctx req) with ⟨res, m'⟩
    rw [hres'] at he
    rcases res with ⟨err, called⟩
    simp at he
    simp [he]
  · unfold RebacMiddleware.Unary
    rcases (rm.authorize jwtSub rclient ctx req).err with _ | e <;> simp
  · intro e he
    unfold RebacMiddleware.Unary
    rw [he]
  · intro hga hgi n hcl
    subst hcl
    unfold GrpczMiddleware.Unary GrpczMiddleware.authorize
    rw [if_neg (by simp [GrpczMiddleware.isAllowedMethod, hga, Lookup.Contains])]
    rw [if_neg (by simp [hgi, Lookup.Contains])]
    rfl

/-- C2 witness: a concrete deny — single false decision — is rejected with the
authorization-failed error by the gRPC interceptor and with 403 by the HTTP
handler, without invoking the downstream handler. -/
theorem enforcement_downstream_iff_allow_witness :
    (({ IdentityBuild := fun _ => ⟨.none, ""⟩, policy := pPolicy } : HttpzMiddleware).Handler
      denyClient {} = .errorResponse 403) ∧
    (GrpczMiddleware.New pPolicy).Unary noJwt denyClient {} Option.none =
      .errorReturned (.withContext .authorizationFailed) :=
  have h := enforcement_downstream_iff_allow noJwt
    ({ IdentityBuild := fun _ => ⟨.none, ""⟩, policy := pPolicy } : HttpzMiddleware)
    denyClient {}
    (GrpczMiddleware.New pPolicy) (GrpcMiddleware.New pPolicy) (RebacMiddleware.New pPolicy)
    denyClient denyClient denyClient {} Option.none [] rfl
  ⟨h.2.1 rfl, h.2.2.2.2.2.2.2.2.2 rfl rfl "allowed" rfl⟩

/-! ## Claim C1 — invalid-decision handling across middleware variants -/

def cPolicy : Policy := { name := "p", path := "a.b", decision := "allowed" }

/-- C1 counterexample: the gRPC middleware treats a backend response with
*two* decisions as valid — it returns no error (allowing the request on the
first decision's flag) instead of `ErrInvalidDecision`. -/
theorem grpcz_two_decisions_allowed :
    twoDecisions.length = 2 ∧
    (GrpczMiddleware.New cPolicy).authorize noJwt twoDecClient { method := "/svc/M" }
      Option.none = ⟨Option.none, true⟩ ∧
    (Option.none : Option GoErr) ≠ some (.withContext .invalidDecision) :=
  ⟨by decide, by decide, by decide⟩

/-- C1 amended: the HTTP middleware's decision invoker returns
`ErrInvalidDecision` whenever the response does not contain exactly one
decision; the gRPC policy middlewares (current and legacy) and the ReBAC
policy-check middleware return `ErrInvalidDecision` only for a zero-decision
response and otherwise reduce the response to the *first* decision's allowed
flag, even when more than one decision is present.  No shape is treated as an
implicit allow or deny beyond that reduction. -/
theorem decision_shape_reduction
    (jwtSub : String → Option String)
    (hm : HttpzMiddleware) (icx : IdentityContext) (pcx : PolicyContext) (res : Struct)
    (gm : GrpczMiddleware) (lm : GrpcMiddleware) (rm : RebacMiddleware)
    (ctx : Ctx) (req : Req) (resp : IsResponse)
    (hga : gm.allowedMethods = []) (hgi : gm.ignoredPaths = [])
    (hli : lm.ignoredMethods = [])
    (hra : rm.allowedMethods = []) (hri : rm.ignoredPaths = []) :
    (resp.decisions.length ≠ 1 →
      hm.is (fun _ => .ok resp) icx pcx res = .error (.withContext .invalidDecision)) ∧
    (∀ d, resp.decisions = [d] → hm.is (fun _ => .ok resp) icx pcx res = .ok d.is) ∧
    (resp.decisions = [] →
      (gm.authorize jwtSub (fun _ => .ok resp) ctx req).err =
        some (.withContext .invalidDecision) ∧
      (lm.authorize jwtSub (fun _ => .ok resp) ctx req).1.err = some .invalidDecision ∧
      (rm.authorize jwtSub (fun _ => .ok resp) ctx req).err = some .invalidDecision) ∧
    (∀ d rest, resp.decisions = d :: rest →
      (gm.authorize jwtSub (fun _ => .ok resp) ctx req).err =
        (if d.is then Option.none else some (.withContext .authorizationFailed)) ∧
      (lm.authorize jwtSub (fun _ => .ok resp) ctx req).1.err =
        (if d.is then Option.none else some .authorizationFailed) ∧
      (rm.authorize jwtSub (fun _ => .ok resp) ctx req).err =
        (if d.is then Option.none else some .authorizationFailed)) := by
  have hgmA : ¬ gm.isAllowedMethod ctx = true := by
    simp [GrpczMiddleware.isAllowedMethod, hga, Lookup.Contains]
  have hrmA : ¬ rm.isAllowedMethod ctx = true := by
    simp [RebacMiddleware.isAllowedMethod, hra, Lookup.Contains]
  refine ⟨?_, ?_, ?_, ?_⟩
  · intro hlen
    unfold HttpzMiddleware.is
    rcases hd : resp.decisions with _ | ⟨d, rest⟩
    · simp [hd]
    · rcases rest with _ | ⟨d', rest'⟩
      · rw [hd] at hlen
        simp at hlen
      · simp [hd]
  · intro d hd
    unfold HttpzMiddleware.is
    simp [hd]
  · intro hd
    refine ⟨?_, ?_, ?_⟩
    · unfold GrpczMiddleware.authorize
      rw [if_neg hgmA, if_neg (by simp [hgi, Lookup.Contains])]
      simp only [GrpczMiddleware.resourceContext, newStruct]
      rw [hd]
    · unfold GrpcMiddleware.authorize
      rcases hpm : lm.policyMapper with _ | f <;>
        simp only [GrpcMiddleware.resourceContext, newStruct, hli] <;>
        simp [hd]
    · unfold RebacMiddleware.authorize
      rw [if_neg hrmA]
      simp only [RebacMiddleware.resourceContext, newStruct]
      rw [if_neg (by simp [hri, Lookup.Contains]), hd]
  · intro d rest hd
    refine ⟨?_, ?_, ?_⟩
    · unfold GrpczMiddleware.authorize
      rw [if_neg hgmA, if_neg (by simp [hgi, Lookup.Contains])]
      simp only [GrpczMiddleware.resourceContext, newStruct]
      rw [hd]
      rcases hb : d.is <;> simp [hb]
    · unfold GrpcMiddleware.authorize
      rcases hpm : lm.policyMapper with _ | f <;>
        simp only [GrpcMiddleware.resourceContext, newStruct, hli] <;>
        rcases hb : d.is <;> simp [hd, hb]
    · unfold RebacMiddleware.authorize
      rw [if_neg hrmA]
      simp only [RebacMiddleware.resourceContext, newStruct]
      rw [if_neg (by simp [hri, Lookup.Contains]), hd]
      rcases hb : d.is <;> simp [hb]

/-- C1 witness: concrete instantiations — an empty decision list yields
`ErrInvalidDecision` in every variant, and a singleton true decision is an
allow. -/
theorem decision_shape_reduction_witness :
    (({ IdentityBuild := fun _ => ⟨.none, ""⟩, policy := pPolicy } : HttpzMiddleware).is
      (fun _ => .ok ⟨[]⟩) ⟨.none, ""⟩ (DefaultPolicyContext pPolicy) [] =
        .error (.withContext .invalidDecision)) ∧
    ((GrpczMiddleware.New pPolicy).authorize noJwt (fun _ => .ok ⟨[]⟩) {} Option.none).err =
      some (.withContext .invalidDecision) ∧
    ((GrpczMiddleware.New pPolicy).authorize noJwt
        (fun _ => .ok ⟨[⟨"allowed", true⟩]⟩) {} Option.none).err = Option.none :=
  have h0 := decision_shape_reduction noJwt
    ({ IdentityBuild := fun _ => ⟨.none, ""⟩, policy := pPolicy } : HttpzMiddleware)
    ⟨.none, ""⟩ (DefaultPolicyContext pPolicy) []
    (GrpczMiddleware.New pPolicy) (GrpcMiddleware.New pPolicy) (RebacMiddleware.New pPolicy)
    {} Option.none ⟨[]⟩ rfl rfl rfl rfl rfl
  have h1 := decision_shape_reduction noJwt
    ({ IdentityBuild := fun _ => ⟨.none, ""⟩, policy := pPolicy } : HttpzMiddleware)
    ⟨.none, ""⟩ (DefaultPolicyContext pPolicy) []
    (GrpczMiddleware.New pPolicy) (GrpcMiddleware.New pPolicy) (RebacMiddleware.New pPolicy)
    {} Option.none ⟨[⟨"allowed", true⟩]⟩ rfl rfl rfl rfl rfl
  ⟨h0.1 (by decide), (h0.2.2.1 rfl).1,
    by simpa using (h1.2.2.2 ⟨"allowed", true⟩ [] rfl).1⟩

/-! ## Claim C3 — middleware state is read-only while serving -/

/-- Helper: the middleware state returned by the legacy `authorize` — the
policy context's path is overwritten with the mapper's output when a mapper is
registered; nothing else is written on any control path. -/
theorem grpc_authorize_snd (jwtSub : String → Option String) (lm : GrpcMiddleware)
    (client : Client) (ctx : Ctx) (req : Req) :
    (lm.authorize jwtSub client ctx req).2 =
      match lm.policyMapper with
      | some f => { lm with policyContext := { lm.policyContext with path := f ctx req } }
      | Option.none => lm := by
  rcases hpm : lm.policyMapper with _ | f <;>
    · simp only [GrpcMiddleware.authorize, hpm, GrpcMiddleware.resourceContext, newStruct]
      repeat' split
      all_goals rfl

def lmFix : GrpcMiddleware :=
  { GrpcMiddleware.New { name := "p", decision := "allowed" } with
    policyMapper := some (fun _ _ => "resolved.path") }

/-- C3 counterexample: the legacy gRPC middleware's `authorize` mutates the
shared middleware state — after serving one request the middleware's stored
policy context differs from the one it was constructed with. -/
theorem grpc_legacy_authorize_mutates_state :
    lmFix.policyContext.path = "" ∧
    ((lmFix.authorize noJwt allowClient { method := "/x/Y" } Option.none).2).policyContext.path
      = "resolved.path" ∧
    ((lmFix.authorize noJwt allowClient { method := "/x/Y" } Option.none).2).policyContext
      ≠ lmFix.policyContext :=
  ⟨by decide, by decide, by decide⟩

/-- C3 amended: the current (`grpcz`) middleware derives the policy context as
a per-request local and `authorize` is a pure function of the middleware
value, but the legacy gRPC middleware writes the resolved policy path into the
shared middleware's policy context on every request with a registered policy
mapper (and mutates nothing when no mapper is registered); resolving a request
twice against the same immutable inputs yields identical results and a
fixed-point state. -/
theorem middleware_state_mutation (jwtSub : String → Option String) (lm : GrpcMiddleware)
    (client : Client) (ctx : Ctx) (req : Req) :
    (lm.policyMapper = Option.none → (lm.authorize jwtSub client ctx req).2 = lm) ∧
    (∀ f, lm.policyMapper = some f → (lm.authorize jwtSub client ctx req).2 =
      { lm with policyContext := { lm.policyContext with path := f ctx req } }) ∧
    ((lm.authorize jwtSub client ctx req).2.authorize jwtSub client ctx req =
      ((lm.authorize jwtSub client ctx req).1, (lm.authorize jwtSub client ctx req).2)) := by
  refine ⟨?_, ?_, ?_⟩
  · intro hpm
    rw [grpc_authorize_snd, hpm]
  · intro f hpm
    rw [grpc_authorize_snd, hpm]
  · have hsnd := grpc_authorize_snd jwtSub lm client ctx req
    rcases hpm : lm.policyMapper with _ | f
    · rw [hpm] at hsnd
      rw [hsnd]
      exact Prod.ext rfl hsnd
    · rw [hpm] at hsnd
      rw [hsnd]
      refine Prod.ext ?_ ?_
      · simp only [GrpcMiddleware.authorize, hpm]
      · rw [grpc_authorize_snd]

/-- C3 witness: the amended characterization at the concrete mutated
middleware. -/
theorem middleware_state_mutation_witness :
    (lmFix.authorize noJwt allowClient { method := "/x/Y" } Option.none).2 =
      { lmFix with policyContext := { lmFix.policyContext with path := "resolved.path" } } :=
  (middleware_state_mutation noJwt lmFix allowClient { method := "/x/Y" } Option.none).2.1
    (fun _ _ => "resolved.path") rfl

/-! ## Claim C4 — field-mask validation errors are not surfaced -/

def badMsg : PMessage := [("a", .prim "1")]

/-- C4 counterexample: `pbutil.Select` rejects the unknown field path
`"nope"`, but the message resource mapper discards the error and adds
nothing, and the enforcement path proceeds to the backend and allows the
request — no internal error reaches the caller. -/
theorem select_error_discarded :
    Select badMsg ["nope"] = .error (.errMsg "invalid field path") ∧
    (messageResourceMapper [] ["nope"]) { method := "/s/M" } (some badMsg) [] = [] ∧
    ((GrpczMiddleware.New cPolicy).WithResourceFromFields ["nope"]).authorize noJwt
      allowClient { method := "/s/M" } (some badMsg) = ⟨Option.none, true⟩ :=
  ⟨rfl, rfl, rfl⟩

/-- C4 amended: `pbutil.Select` does return an error on an invalid or unknown
field path, but the built-in message resource mapper discards it
(`resource, _ := pbutil.Select(...)`), leaving the resource map untouched,
and the resource-context build as a whole never fails — so the enforcement
wrapper sees no error and nothing is surfaced to the caller. -/
theorem field_mask_error_not_surfaced (ctx : Ctx) (res : ResMap) (msg : PMessage)
    (fields : List String) (e : GoErr) (m : GrpczMiddleware) (ctx' : Ctx) (req' : Req)
    (hf : fields ≠ []) (herr : Select msg fields = .error e) :
    messageResourceMapper [] fields ctx (some msg) res = res ∧
    ∃ s, m.resourceContext ctx' req' = .ok s := by
  constructor
  · unfold messageResourceMapper
    simp only [List.lookup]
    rw [if_pos (by simpa using List.length_pos.mpr hf), herr]
    rfl
  · exact ⟨_, rfl⟩

/-- C4 witness: the amended statement at the concrete bad mask. -/
theorem field_mask_error_not_surfaced_witness :
    (messageResourceMapper [] ["nope"]) { method := "/s/M" } (some badMsg)
      [("other", .str "x")] = [("other", .str "x")] :=
  (field_mask_error_not_surfaced { method := "/s/M" } [("other", .str "x")] badMsg
    ["nope"] (.errMsg "invalid field path") (GrpczMiddleware.New cPolicy) {} Option.none
    (by decide) rfl).1

/-! ## Claim C10 — legacy ignored-methods matching semantics -/

def m10 : GrpczMiddleware :=
  (GrpczMiddleware.New { name := "p", decision := "allowed" }).WithIgnoredMethods
    ["MYSERVICE.GET.USER"]

def ctx10 : Ctx := { method := "/myservice.get/user" }

/-- C10 counterexample: in the current gRPC policy middleware the resolved
policy path equals a configured ignored entry after lowercasing, yet the
request is *not* bypassed — the backend is called and the deny is returned, so
the matching is not case-insensitive. -/
theorem grpcz_ignored_paths_case_sensitive :
    goToLower "MYSERVICE.GET.USER" = m10.resolvedPath ctx10 Option.none ∧
    m10.authorize noJwt denyClient ctx10 Option.none =
      ⟨some (.withContext .authorizationFailed), true⟩ :=
  ⟨by decide, by decide⟩

/-- C10 amended: the `grpcz` policy middleware's `WithIgnoredMethods` bypasses
a request exactly when the resolved policy path equals a configured entry
*case-sensitively* (entries stored verbatim), as does the legacy gRPC
middleware; only the ReBAC middleware's `WithIgnoredMethods` is
case-insensitive — entries are lowercased and compared with the lowercased
method-derived permission. -/
theorem ignored_paths_matching (jwtSub : String → Option String)
    (m : GrpczMiddleware) (lm : GrpcMiddleware) (c : RebacMiddleware)
    (paths : List String) (client : Client) (ctx : Ctx) (req : Req)
    (hma : ¬ m.isAllowedMethod ctx = true) (hca : ¬ c.isAllowedMethod ctx = true) :
    (m.resolvedPath ctx req ∈ paths →
      (m.WithIgnoredMethods paths).authorize jwtSub client ctx req = ⟨Option.none, false⟩) ∧
    (lm.resolvedPath ctx req ∈ paths →
      ((lm.WithIgnoredMethods paths).authorize jwtSub client ctx req).1 =
        ⟨Option.none, false⟩) ∧
    (permissionFromMethod ctx ∈ paths.map goToLower →
      (c.WithIgnoredMethods paths).authorize jwtSub client ctx req = ⟨Option.none, false⟩) := by
  refine ⟨?_, ?_, ?_⟩
  · intro hmem
    unfold GrpczMiddleware.authorize
    rw [if_neg (by simpa [GrpczMiddleware.isAllowedMethod,
      GrpczMiddleware.WithIgnoredMethods] using hma)]
    rcases hpm : m.policyMapper with _ | f <;>
      · rw [GrpczMiddleware.resolvedPath, hpm] at hmem
        simp only [GrpczMiddleware.WithIgnoredMethods, hpm, NewLookup, Lookup.Contains,
          DefaultPolicyContext]
        rw [if_pos (by simpa using hmem)]
  · intro hmem
    unfold GrpcMiddleware.authorize
    rcases hpm : lm.policyMapper with _ | f <;>
      · rw [GrpcMiddleware.resolvedPath, hpm] at hmem
        simp only [GrpcMiddleware.WithIgnoredMethods, hpm, GrpcMiddleware.resourceContext,
          newStruct]
        rw [if_pos (by simpa using hmem)]
  · intro hmem
    unfold RebacMiddleware.authorize
    rw [if_neg (by simpa [RebacMiddleware.isAllowedMethod,
      RebacMiddleware.WithIgnoredMethods] using hca)]
    simp only [RebacMiddleware.WithIgnoredMethods, RebacMiddleware.resourceContext,
      newStruct, NewLookup, Lookup.Contains]
    rw [if_pos (by simpa using hmem)]

/-- C10 witness: a concrete exact-match bypass in the `grpcz` middleware. -/
theorem ignored_paths_matching_witness :
    ((GrpczMiddleware.New { name := "p", decision := "allowed" }).WithIgnoredMethods
      ["svc.M"]).authorize noJwt denyClient { method := "/svc/M" } Option.none =
      ⟨Option.none, false⟩ :=
  (ignored_paths_matching noJwt (GrpczMiddleware.New { name := "p", decision := "allowed" })
    (GrpcMiddleware.New { name := "p", decision := "allowed" })
    (RebacMiddleware.New { name := "p", decision := "allowed" })
    ["svc.M"] denyClient { method := "/svc/M" } Option.none
    (by decide) (by decide)).1 (by decide)

end GoAserto
